import Mathlib

/-!
Shallow embedding of the reliability core of the Atlas API repository
(`apps/api/src/atlas_api/reliability/`): the circuit breaker
(`circuit_breaker.py`), the retry/backoff configuration and wrapper
(`retry.py`), and the SLO registry (`slo.py`), together with theorems
settling the specification claims about them.

Modelling conventions:
  - Python wall-clock times (`time.time()` floats) are modelled as ℚ.
  - Python `int` delays are ℤ, counters are ℕ (they start at 0 and are
    only incremented or reset in the source).
  - A Python exception value is modelled as a pair of its type name and
    its message (`PyExc`).
  - The protected operation of one breaker call is abstracted by its
    observable outcome (`Outcome`): it returns, raises an exception whose
    type matches the breaker's configured exception tuple, or raises a
    non-matching exception.
  - `random.uniform(0.5, 1.5)` is modelled by passing the drawn jitter
    factor as an explicit argument.
-/

namespace Atlas

/-- Model of a Python exception value: its type name and its message. -/
structure PyExc where
  etype : String
  msg : String
deriving DecidableEq, Repr

/-! ## circuit_breaker.py -/

/-- `CircuitState` enum of `circuit_breaker.py` (lines 26-37). -/
inductive CircuitState where
  | CLOSED
  | OPEN
  | HALF_OPEN
deriving DecidableEq, Repr

/-- `CircuitBreakerConfig` (`circuit_breaker.py` lines 40-66), fields only.
The thresholds are Python ints validated to be `>= 1`; the counters they are
compared against start at 0 and only grow, so ℕ is a faithful carrier. -/
structure CircuitBreakerConfig where
  failure_threshold : ℕ
  recovery_timeout_seconds : ℕ
  success_threshold : ℕ
deriving DecidableEq, Repr

/-- Validation performed by `CircuitBreakerConfig.__init__` (lines 57-62):
all three parameters must be `>= 1`, else `ValueError`. -/
def CircuitBreakerConfig.Valid (c : CircuitBreakerConfig) : Prop :=
  1 ≤ c.failure_threshold ∧ 1 ≤ c.recovery_timeout_seconds ∧ 1 ≤ c.success_threshold

/-- Mutable state of a `CircuitBreaker` instance plus its immutable
name and config (`circuit_breaker.py` lines 97-105). -/
structure CircuitBreaker where
  name : String
  config : CircuitBreakerConfig
  state : CircuitState
  failure_count : ℕ
  success_count : ℕ
  last_failure_time : Option ℚ
  opened_at : Option ℚ
deriving DecidableEq, Repr

/-- `CircuitBreaker.__init__` (lines 101-105): state CLOSED, both counters 0,
both timestamps `None`. -/
def CircuitBreaker.init (name : String) (config : CircuitBreakerConfig) : CircuitBreaker :=
  ⟨name, config, .CLOSED, 0, 0, none, none⟩

/-- The exception raised when the breaker short-circuits
(`circuit_breaker.py` lines 154-156): a plain `Exception` whose message
interpolates the breaker name. -/
def circuitOpenExc (name : String) : PyExc :=
  ⟨"Exception", "Circuit breaker " ++ name ++ " is OPEN. Service is unavailable."⟩

/-- `CircuitBreaker._should_attempt_reset` (lines 119-128): `False` unless the
state is OPEN and `opened_at` is set and `now - opened_at >= recovery_timeout_seconds`. -/
def CircuitBreaker.should_attempt_reset (cb : CircuitBreaker) (now : ℚ) : Bool :=
  match cb.state, cb.opened_at with
  | .OPEN, some t => decide ((cb.config.recovery_timeout_seconds : ℚ) ≤ now - t)
  | _, _ => false

/-- The recovery check at the top of `call_sync` (lines 146-149): if
`_should_attempt_reset()`, enter HALF_OPEN and reset `success_count` to 0. -/
def after_reset_check (cb : CircuitBreaker) (now : ℚ) : CircuitBreaker :=
  if cb.should_attempt_reset now then
    { cb with state := .HALF_OPEN, success_count := 0 }
  else cb

/-- The success path of `call_sync` (lines 162-173): in HALF_OPEN, increment
`success_count` and close (resetting `failure_count`) once it reaches
`success_threshold`; in CLOSED, reset `failure_count`; otherwise unchanged. -/
def on_success (cb : CircuitBreaker) : CircuitBreaker :=
  if cb.state = .HALF_OPEN then
    let cb := { cb with success_count := cb.success_count + 1 }
    if cb.config.success_threshold ≤ cb.success_count then
      { cb with state := .CLOSED, failure_count := 0 }
    else cb
  else if cb.state = .CLOSED then
    { cb with failure_count := 0 }
  else cb

/-- The matching-failure path of `call_sync` (lines 177-197): increment
`failure_count`, record `last_failure_time`, and open the circuit (recording
`opened_at`) once `failure_count` reaches `failure_threshold`. -/
def on_matching_failure (cb : CircuitBreaker) (now : ℚ) : CircuitBreaker :=
  let cb := { cb with failure_count := cb.failure_count + 1, last_failure_time := some now }
  if cb.config.failure_threshold ≤ cb.failure_count then
    { cb with state := .OPEN, opened_at := some now }
  else cb

/-- Observable outcome of invoking the protected operation once: it returns,
raises an exception matching the breaker's configured exception tuple, or
raises a non-matching exception. -/
inductive Outcome where
  | success
  | matchingFailure (e : PyExc)
  | nonMatchingFailure (e : PyExc)
deriving DecidableEq, Repr

/-- What one `call_sync` invocation does from the caller's point of view:
raise the circuit-open rejection, return normally, or re-raise the
operation's own exception. -/
inductive CallResult where
  | rejected (e : PyExc)
  | ok
  | raised (e : PyExc)
deriving DecidableEq, Repr

/-- Result of one `call_sync` invocation: the breaker state afterwards,
whether the protected operation was invoked, and what the caller sees. -/
structure CallOut where
  cb : CircuitBreaker
  invoked : Bool
  result : CallResult
deriving DecidableEq, Repr

/-- `CircuitBreaker.call_sync` (lines 130-197); `call_async` (lines 199-268)
has identical state logic. First run the lazy recovery check; if the state is
(still) OPEN, raise the circuit-open `Exception` without invoking the
operation and without touching any counter; otherwise invoke the operation
and apply the success or failure path, re-raising the operation's exception
in the failure cases. -/
def call_sync (cb : CircuitBreaker) (now : ℚ) (o : Outcome) : CallOut :=
  let cb2 := after_reset_check cb now
  if cb2.state = .OPEN then
    ⟨cb2, false, .rejected (circuitOpenExc cb2.name)⟩
  else
    match o with
    | .success => ⟨on_success cb2, true, .ok⟩
    | .matchingFailure e => ⟨on_matching_failure cb2 now, true, .raised e⟩
    | .nonMatchingFailure e => ⟨cb2, true, .raised e⟩

/-- Sequence of `call_sync` invocations at a fixed time, one per listed
outcome, threading the breaker state. -/
def calls_fold (cb : CircuitBreaker) (now : ℚ) : List Outcome → CircuitBreaker
  | [] => cb
  | o :: os => calls_fold (call_sync cb now o).cb now os

/-- Reachability invariant of the breaker: whenever the state is OPEN or
HALF_OPEN, the failure count has reached the failure threshold (the source
resets `failure_count` only on transition to CLOSED or on a success while
CLOSED, never on entering HALF_OPEN). -/
def CBInv (cb : CircuitBreaker) : Prop :=
  cb.state = .OPEN ∨ cb.state = .HALF_OPEN →
    cb.config.failure_threshold ≤ cb.failure_count

/-! ## retry.py -/

/-- `RetryConfig` (`retry.py` lines 25-63), fields only. Delays are Python
ints (ℤ), the multiplier a Python float (ℚ in this embedding). -/
structure RetryConfig where
  max_attempts : ℕ
  base_delay_ms : ℤ
  max_delay_ms : ℤ
  multiplier : ℚ
  jitter : Bool
deriving DecidableEq, Repr

/-- Validation performed by `RetryConfig.__init__` (lines 50-57). -/
def RetryConfig.Valid (c : RetryConfig) : Prop :=
  1 ≤ c.max_attempts ∧ 0 ≤ c.base_delay_ms ∧ c.base_delay_ms ≤ c.max_delay_ms ∧
    1 ≤ c.multiplier

/-- Python `int()` applied to a rational: truncation toward zero. On a
canonical rational (positive denominator) this is exactly `num tdiv den`. -/
def pyInt (q : ℚ) : ℤ :=
  q.num.tdiv q.den

/-- The deterministic (pre-jitter) delay of `calculate_delay_ms`
(`retry.py` lines 79-81): exponential backoff capped at `max_delay_ms`. -/
def det_delay (c : RetryConfig) (attempt : ℕ) : ℚ :=
  min ((c.base_delay_ms : ℚ) * c.multiplier ^ attempt) (c.max_delay_ms : ℚ)

/-- `RetryConfig.calculate_delay_ms` (`retry.py` lines 65-88). The jitter
factor drawn by `random.uniform(0.5, 1.5)` is passed explicitly; it is
ignored when `jitter` is disabled. The final `int(delay)` truncates. -/
def calculate_delay_ms (c : RetryConfig) (attempt : ℕ) (jitter_factor : ℚ) : ℤ :=
  let delay := (c.base_delay_ms : ℚ) * c.multiplier ^ attempt
  let delay := min delay (c.max_delay_ms : ℚ)
  let delay := if c.jitter then delay * jitter_factor else delay
  pyInt delay

/-- Observable outcome of one invocation of the wrapped operation inside the
retry loop: it returns, raises an exception matching the decorator's
`exceptions` tuple, or raises a non-matching exception. -/
inductive AttemptResult where
  | success
  | retryableFailure (e : PyExc)
  | nonRetryableFailure (e : PyExc)
deriving DecidableEq, Repr

/-- What the retry wrapper does from the caller's point of view: return the
operation's result, re-raise an exception raised by the operation, or raise
the synthesized `Exception(f"Failed after ... attempts")` of `retry.py`
line 155 (only reachable when `last_exception` is `None`). -/
inductive RetryResult where
  | ok
  | raised (e : PyExc)
  | synthesized
deriving DecidableEq, Repr

/-- Observable trace of one run of the retry wrapper: how many times the
operation was invoked, the 1-indexed `attempt` labels passed to
`retry_attempts_total.labels(...).inc()` in order, and the final result. -/
structure RetryTrace where
  invocations : ℕ
  increments : List ℕ
  result : RetryResult
deriving DecidableEq, Repr

/-- The `for attempt in range(config.max_attempts)` loop of the `retry_sync`
wrapper (`retry.py` lines 120-155); `retry_async` (lines 193-228) has
identical control flow. `fuel` is the number of loop iterations left, `a` the
current 0-indexed attempt, `last` the current `last_exception`. On a matching
failure the counter is incremented with label `attempt + 1` and the loop
continues (the `attempt < max_attempts - 1` test in the source only gates the
sleep, logging and `on_retry` callback); a non-matching exception escapes the
loop uncaught; when the range is exhausted, `raise last_exception or
Exception(...)`. -/
def retry_go (op : ℕ → AttemptResult) : ℕ → ℕ → Option PyExc → RetryTrace
  | 0, _, last =>
    ⟨0, [], match last with
            | some e => .raised e
            | none => .synthesized⟩
  | fuel + 1, a, _ =>
    match op a with
    | .success => ⟨1, [], .ok⟩
    | .nonRetryableFailure e => ⟨1, [], .raised e⟩
    | .retryableFailure e =>
      let t := retry_go op fuel (a + 1) (some e)
      ⟨t.invocations + 1, (a + 1) :: t.increments, t.result⟩

/-- One full run of the `retry_sync`/`retry_async` wrapper around an
operation whose per-attempt outcomes are given by `op`. -/
def retry_run (op : ℕ → AttemptResult) (c : RetryConfig) : RetryTrace :=
  retry_go op c.max_attempts 0 none

/-- An operation that raises a matching (retryable) exception on every
attempt, the exception possibly depending on the attempt index. -/
def alwaysFailOp (f : ℕ → PyExc) : ℕ → AttemptResult :=
  fun a => .retryableFailure (f a)

/-- An operation that raises a matching exception on the first `k` attempts
and then returns successfully. -/
def failsThenSucceeds (f : ℕ → PyExc) (k : ℕ) : ℕ → AttemptResult :=
  fun a => if a < k then .retryableFailure (f a) else .success

/-! ## slo.py -/

/-- `LatencySLI` (`slo.py` lines 24-40), fields only. -/
structure LatencySLI where
  p50_ms : ℚ
  p95_ms : ℚ
  p99_ms : ℚ
  p999_ms : ℚ
deriving DecidableEq, Repr

/-- `ErrorRateSLI` (`slo.py` lines 43-59), fields only. -/
structure ErrorRateSLI where
  max_error_rate : ℚ
  max_5xx_rate : ℚ
deriving DecidableEq, Repr

/-- `ThroughputSLI` (`slo.py` lines 62-77), fields only. -/
structure ThroughputSLI where
  min_rps : ℚ
  max_rps : ℚ
deriving DecidableEq, Repr

/-- `AvailabilitySLI` (`slo.py` lines 80-92), fields only. -/
structure AvailabilitySLI where
  min_availability : ℚ
deriving DecidableEq, Repr

/-- `ServiceLevelObjective` (`slo.py` lines 95-112). -/
structure ServiceLevelObjective where
  name : String
  description : String
  latency : LatencySLI
  error_rate : ErrorRateSLI
  throughput : ThroughputSLI
  availability : AvailabilitySLI
  window_minutes : ℕ
deriving DecidableEq, Repr

/-- `ATLAS_API_SLO` (`slo.py` lines 118-139). -/
def ATLAS_API_SLO : ServiceLevelObjective :=
  { name := "atlas-api"
    description := "Atlas API Service Level Objective"
    latency := ⟨50, 200, 500, 1000⟩
    error_rate := ⟨mkRat 1 100, mkRat 1 1000⟩
    throughput := ⟨100, 10000⟩
    availability := ⟨mkRat 999 1000⟩
    window_minutes := 5 }

/-- `CRITICAL_ENDPOINT_SLO` (`slo.py` lines 142-163). -/
def CRITICAL_ENDPOINT_SLO : ServiceLevelObjective :=
  { name := "critical-endpoints"
    description := "SLO for critical endpoints (auth, payments, etc.)"
    latency := ⟨20, 100, 200, 500⟩
    error_rate := ⟨mkRat 1 1000, mkRat 1 10000⟩
    throughput := ⟨50, 5000⟩
    availability := ⟨mkRat 9999 10000⟩
    window_minutes := 1 }

/-- `NON_CRITICAL_ENDPOINT_SLO` (`slo.py` lines 166-187). -/
def NON_CRITICAL_ENDPOINT_SLO : ServiceLevelObjective :=
  { name := "non-critical-endpoints"
    description := "SLO for non-critical endpoints (analytics, reporting, etc.)"
    latency := ⟨100, 500, 2000, 5000⟩
    error_rate := ⟨mkRat 5 100, mkRat 1 100⟩
    throughput := ⟨10, 1000⟩
    availability := ⟨mkRat 99 100⟩
    window_minutes := 60 }

/-- Does `hay` start with `pat`? (Character-by-character, case-sensitive.) -/
def beginsWith : List Char → List Char → Bool
  | _, [] => true
  | [], _ :: _ => false
  | h :: hs, p :: ps => h == p && beginsWith hs ps

/-- Does `hay` contain `pat` as a contiguous sublist? -/
def hasSubList (pat : List Char) : List Char → Bool
  | [] => pat.isEmpty
  | c :: rest => beginsWith (c :: rest) pat || hasSubList pat rest

/-- Python's `pattern in endpoint` on strings: case-sensitive substring
containment. -/
def strHasSub (hay pat : String) : Bool :=
  hasSubList pat.data hay.data

/-- The `critical_patterns` list of `get_slo_for_endpoint`
(`slo.py` lines 201-207). -/
def critical_patterns : List String :=
  ["/health", "/auth", "/login", "/payments", "/transactions"]

/-- The `non_critical_patterns` list of `get_slo_for_endpoint`
(`slo.py` lines 214-219). -/
def non_critical_patterns : List String :=
  ["/analytics", "/reports", "/export", "/batch"]

/-- `get_slo_for_endpoint` (`slo.py` lines 190-226): scan the critical
patterns in order, returning `CRITICAL_ENDPOINT_SLO` on the first substring
match; else scan the non-critical patterns, returning
`NON_CRITICAL_ENDPOINT_SLO` on the first match; else `ATLAS_API_SLO`.
The first-match loops are modelled by `List.find?`. -/
def get_slo_for_endpoint (endpoint : String) : ServiceLevelObjective :=
  match critical_patterns.find? (fun p => strHasSub endpoint p) with
  | some _ => CRITICAL_ENDPOINT_SLO
  | none =>
    match non_critical_patterns.find? (fun p => strHasSub endpoint p) with
    | some _ => NON_CRITICAL_ENDPOINT_SLO
    | none => ATLAS_API_SLO

/-! ## Helper lemmas -/

/-- The recovery check can only fire in the OPEN state. -/
theorem should_attempt_reset_state (cb : CircuitBreaker) (now : ℚ)
    (h : cb.should_attempt_reset now = true) : cb.state = .OPEN := by
  unfold CircuitBreaker.should_attempt_reset at h
  cases hs : cb.state <;> cases ho : cb.opened_at <;> rw [hs, ho] at h <;> simp_all

/-- Outside the OPEN state the recovery check never fires. -/
theorem should_attempt_reset_of_ne_open (cb : CircuitBreaker) (now : ℚ)
    (h : cb.state ≠ .OPEN) : cb.should_attempt_reset now = false := by
  unfold CircuitBreaker.should_attempt_reset
  cases hs : cb.state <;> cases ho : cb.opened_at <;> simp_all

/-- Outside the OPEN state the recovery check leaves the breaker unchanged. -/
theorem after_reset_check_of_ne_open (cb : CircuitBreaker) (now : ℚ)
    (h : cb.state ≠ .OPEN) : after_reset_check cb now = cb := by
  unfold after_reset_check
  rw [should_attempt_reset_of_ne_open cb now h]
  rfl

/-- While OPEN with the recovery timeout not yet elapsed, `call_sync` rejects
with the circuit-open exception, does not invoke the operation, and leaves
the whole breaker record unchanged. -/
theorem call_sync_open_rejects (cb : CircuitBreaker) (now t : ℚ) (o : Outcome)
    (hs : cb.state = .OPEN) (ht : cb.opened_at = some t)
    (hlt : now - t < (cb.config.recovery_timeout_seconds : ℚ)) :
    call_sync cb now o = ⟨cb, false, .rejected (circuitOpenExc cb.name)⟩ := by
  have hres : cb.should_attempt_reset now = false := by
    unfold CircuitBreaker.should_attempt_reset
    rw [hs, ht]
    exact decide_eq_false (not_le.mpr hlt)
  have harc : after_reset_check cb now = cb := by
    unfold after_reset_check
    rw [hres]
    rfl
  unfold call_sync
  rw [harc, if_pos hs]

/-- `call_sync` never changes the breaker's name or its configuration. -/
theorem call_sync_name_config (cb : CircuitBreaker) (now : ℚ) (o : Outcome) :
    (call_sync cb now o).cb.name = cb.name ∧
      (call_sync cb now o).cb.config = cb.config := by
  rcases o <;>
    simp only [call_sync, after_reset_check, on_success, on_matching_failure] <;>
    split_ifs <;> simp

/-- A run of matching failures at a fixed time starting CLOSED, whose length
completes the failure threshold, drives the breaker to OPEN and records
`opened_at`; name and configuration are unchanged. -/
theorem calls_fold_matching_closed (t : ℚ) :
    ∀ (os : List Outcome) (cb : CircuitBreaker),
      (∀ o ∈ os, ∃ e, o = Outcome.matchingFailure e) →
      cb.state = .CLOSED →
      cb.failure_count + os.length = cb.config.failure_threshold →
      1 ≤ os.length →
      (calls_fold cb t os).state = .OPEN ∧
      (calls_fold cb t os).opened_at = some t ∧
      (calls_fold cb t os).name = cb.name ∧
      (calls_fold cb t os).config = cb.config := by
  intro os
  induction os with
  | nil =>
    intro cb _ _ _ h
    simp at h
  | cons o os ih =>
    intro cb hm hst hsum _
    simp only [List.length_cons] at hsum
    obtain ⟨e, rfl⟩ := hm o (List.mem_cons_self o os)
    have hne : cb.state ≠ .OPEN := by rw [hst]; simp
    have hstep : (call_sync cb t (.matchingFailure e)).cb = on_matching_failure cb t := by
      unfold call_sync
      rw [after_reset_check_of_ne_open cb t hne, if_neg hne]
    rcases Nat.lt_or_ge (cb.failure_count + 1) cb.config.failure_threshold with hlt | hge
    · have hcb : on_matching_failure cb t =
          { cb with failure_count := cb.failure_count + 1,
                    last_failure_time := some t } := by
        unfold on_matching_failure
        rw [if_neg (show ¬ cb.config.failure_threshold ≤ cb.failure_count + 1 by omega)]
      have h := ih { cb with failure_count := cb.failure_count + 1,
                             last_failure_time := some t }
        (fun o' ho' => hm o' (List.mem_cons_of_mem _ ho'))
        (show cb.state = .CLOSED from hst)
        (show cb.failure_count + 1 + os.length = cb.config.failure_threshold by omega)
        (show 1 ≤ os.length by omega)
      simpa [calls_fold, hstep, hcb] using h
    · have hlen0 : os.length = 0 := by omega
      have hnil : os = [] := List.length_eq_zero.mp hlen0
      subst hnil
      have hcb : on_matching_failure cb t =
          { cb with failure_count := cb.failure_count + 1,
                    last_failure_time := some t,
                    state := .OPEN, opened_at := some t } := by
        unfold on_matching_failure
        rw [if_pos (show cb.config.failure_threshold ≤ cb.failure_count + 1 by omega)]
      simp [calls_fold, hstep, hcb]

/-- A run of consecutive successes at a fixed time starting HALF_OPEN, whose
length completes the success threshold, drives the breaker to CLOSED and
resets the failure count. -/
theorem calls_fold_success_half_open (t : ℚ) :
    ∀ (n : ℕ) (cb : CircuitBreaker),
      cb.state = .HALF_OPEN →
      cb.success_count + n = cb.config.success_threshold →
      1 ≤ n →
      (calls_fold cb t (List.replicate n .success)).state = .CLOSED ∧
      (calls_fold cb t (List.replicate n .success)).failure_count = 0 := by
  intro n
  induction n with
  | zero =>
    intro cb _ _ h
    simp at h
  | succ m ih =>
    intro cb hst hsum _
    have hne : cb.state ≠ .OPEN := by rw [hst]; simp
    have hstep : (call_sync cb t .success).cb = on_success cb := by
      unfold call_sync
      rw [after_reset_check_of_ne_open cb t hne, if_neg hne]
    rcases Nat.eq_zero_or_pos m with h0 | hpos
    · subst h0
      have hos : on_success cb =
          { cb with success_count := cb.success_count + 1,
                    state := .CLOSED, failure_count := 0 } := by
        unfold on_success
        rw [if_pos hst, if_pos (show cb.config.success_threshold ≤ cb.success_count + 1 by omega)]
      simp [List.replicate, calls_fold, hstep, hos]
    · have hos : on_success cb =
          { cb with success_count := cb.success_count + 1 } := by
        unfold on_success
        rw [if_pos hst, if_neg (show ¬ cb.config.success_threshold ≤ cb.success_count + 1 by omega)]
      have h := ih { cb with success_count := cb.success_count + 1 }
        (show cb.state = .HALF_OPEN from hst)
        (show cb.success_count + 1 + m = cb.config.success_threshold by omega)
        hpos
      simpa [List.replicate, calls_fold, hstep, hos] using h

/-- `after_reset_check` preserves the reachability invariant. -/
theorem after_reset_check_inv (cb : CircuitBreaker) (now : ℚ) (h : CBInv cb) :
    CBInv (after_reset_check cb now) := by
  unfold after_reset_check
  split_ifs with h1
  · intro _
    exact h (Or.inl (should_attempt_reset_state cb now h1))
  · exact h

/-- The success path preserves the reachability invariant. -/
theorem on_success_inv (cb : CircuitBreaker) (h : CBInv cb) :
    CBInv (on_success cb) := by
  by_cases h1 : cb.state = .HALF_OPEN
  · by_cases h2 : cb.config.success_threshold ≤ cb.success_count + 1
    · have hr : on_success cb =
          { cb with success_count := cb.success_count + 1,
                    state := .CLOSED, failure_count := 0 } := by
        unfold on_success
        rw [if_pos h1, if_pos h2]
      rw [hr]
      intro hor
      simp at hor
    · have hr : on_success cb = { cb with success_count := cb.success_count + 1 } := by
        unfold on_success
        rw [if_pos h1, if_neg h2]
      rw [hr]
      intro _
      exact h (Or.inr h1)
  · by_cases h3 : cb.state = .CLOSED
    · have hr : on_success cb = { cb with failure_count := 0 } := by
        unfold on_success
        rw [if_neg h1, if_pos h3]
      rw [hr]
      intro hor
      simp only [] at hor
      rcases hor with h' | h' <;> simp [h3] at h'
    · have hr : on_success cb = cb := by
        unfold on_success
        rw [if_neg h1, if_neg h3]
      rw [hr]
      exact h

/-- The matching-failure path preserves the reachability invariant when the
state is not OPEN (the only states in which it runs). -/
theorem on_matching_failure_inv (cb : CircuitBreaker) (now : ℚ) (h : CBInv cb)
    (hno : cb.state ≠ .OPEN) : CBInv (on_matching_failure cb now) := by
  by_cases h1 : cb.config.failure_threshold ≤ cb.failure_count + 1
  · have hr : on_matching_failure cb now =
        { cb with failure_count := cb.failure_count + 1,
                  last_failure_time := some now,
                  state := .OPEN, opened_at := some now } := by
      unfold on_matching_failure
      rw [if_pos h1]
    rw [hr]
    intro _
    exact h1
  · have hr : on_matching_failure cb now =
        { cb with failure_count := cb.failure_count + 1,
                  last_failure_time := some now } := by
      unfold on_matching_failure
      rw [if_neg h1]
    rw [hr]
    intro hor
    simp only [] at hor
    rcases hor with h' | h'
    · exact absurd h' hno
    · have := h (Or.inr h')
      show cb.config.failure_threshold ≤ cb.failure_count + 1
      omega

/-- On a nonnegative rational, Python's `int()` truncation agrees with the
floor function. -/
theorem pyInt_eq_floor (q : ℚ) (h : 0 ≤ q) : pyInt q = ⌊q⌋ := by
  rw [pyInt, Int.tdiv_eq_ediv (Rat.num_nonneg.mpr h) (Int.ofNat_nonneg _), ← Rat.floor_def]

/-- A first-match scan returns a hit exactly when some element matches. -/
theorem find?_match_cases {α : Type} (l : List α) (p : α → Bool) :
    (l.any p = true ∧ ∃ x, l.find? p = some x) ∨
      (l.any p = false ∧ l.find? p = none) := by
  rcases h : l.find? p with _ | x
  · exact .inr ⟨List.any_eq_false.mpr fun x hx => by
      simpa using List.find?_eq_none.mp h x hx, rfl⟩
  · exact .inl ⟨List.any_eq_true.mpr ⟨x, List.mem_of_find?_eq_some h, List.find?_some h⟩,
      x, rfl⟩

/-- Trace of the retry loop over an operation that raises a retryable
exception on every attempt: one invocation and one labeled counter increment
per remaining attempt, ending with the re-raise of the exception observed on
the last attempt. -/
theorem retry_go_alwaysFail (f : ℕ → PyExc) :
    ∀ (fuel : ℕ), 1 ≤ fuel → ∀ (a : ℕ) (last : Option PyExc),
      retry_go (alwaysFailOp f) fuel a last =
        ⟨fuel, List.range' (a + 1) fuel, .raised (f (a + fuel - 1))⟩ := by
  intro fuel
  induction fuel with
  | zero => omega
  | succ n ih =>
    intro _ a last
    rcases Nat.eq_zero_or_pos n with h0 | hpos
    · subst h0
      simp [retry_go, alwaysFailOp, List.range'_succ]
    · have h := ih hpos (a + 1) (some (f a))
      simp only [retry_go, alwaysFailOp, h]
      congr 1
      rw [show a + 1 + n - 1 = a + (n + 1) - 1 by omega]

/-- Trace of the retry loop over an operation that raises a retryable
exception on attempts `a, ..., k-1` and then returns: one counter increment
per failed attempt, `k - a + 1` invocations, success. -/
theorem retry_go_failsThen (f : ℕ → PyExc) (k : ℕ) :
    ∀ (fuel : ℕ) (a : ℕ) (last : Option PyExc), a ≤ k → k < a + fuel →
      retry_go (failsThenSucceeds f k) fuel a last =
        ⟨k - a + 1, List.range' (a + 1) (k - a), .ok⟩ := by
  intro fuel
  induction fuel with
  | zero => omega
  | succ n ih =>
    intro a last hak hk
    rcases Nat.lt_or_ge a k with hlt | hge
    · have h := ih (a + 1) (some (f a)) (by omega) (by omega)
      simp only [retry_go, failsThenSucceeds, if_pos hlt, h]
      have hra : k - a = (k - (a + 1)) + 1 := by omega
      congr 1
      · omega
      · rw [hra, List.range'_succ]
    · have hak2 : a = k := by omega
      subst hak2
      simp [retry_go, failsThenSucceeds]

/-! ## Claim theorems -/

/-- C9: `get_slo_for_endpoint` returns the critical objective exactly when
one of the ordered critical substring patterns occurs (case-sensitively) in
the endpoint, else the non-critical objective when one of the non-critical
patterns occurs, else the default objective; in particular "/auth/login"
maps to the critical objective, "/api/v1/users" to the default objective and
"/reports/export" to the non-critical objective (critical patterns are
checked first). -/
theorem c9_get_slo_for_endpoint_policy :
    (∀ e : String,
      get_slo_for_endpoint e =
        if critical_patterns.any (fun p => strHasSub e p) then CRITICAL_ENDPOINT_SLO
        else if non_critical_patterns.any (fun p => strHasSub e p) then
          NON_CRITICAL_ENDPOINT_SLO
        else ATLAS_API_SLO) ∧
    get_slo_for_endpoint "/auth/login" = CRITICAL_ENDPOINT_SLO ∧
    get_slo_for_endpoint "/api/v1/users" = ATLAS_API_SLO ∧
    get_slo_for_endpoint "/reports/export" = NON_CRITICAL_ENDPOINT_SLO := by
  refine ⟨fun e => ?_, by decide, by decide, by decide⟩
  unfold get_slo_for_endpoint
  rcases find?_match_cases critical_patterns (fun p => strHasSub e p) with
    ⟨ha, x, hx⟩ | ⟨ha, hx⟩
  · rw [hx, ha]
    simp
  · rw [hx, ha]
    rcases find?_match_cases non_critical_patterns (fun p => strHasSub e p) with
      ⟨hb, y, hy⟩ | ⟨hb, hy⟩
    · rw [hy, hb]
      simp
    · rw [hy, hb]
      simp

/-- C4: when the operation raises a retryable failure on every one of the
`max_attempts` attempts, the wrapper invokes it exactly `max_attempts` times
and re-raises the failure observed on the last attempt; it never raises the
synthesized generic error when a real failure exists. -/
theorem c4_retry_exhaustion_last_failure (c : RetryConfig) (hc : c.Valid) (f : ℕ → PyExc) :
    (retry_run (alwaysFailOp f) c).invocations = c.max_attempts ∧
    (retry_run (alwaysFailOp f) c).result = .raised (f (c.max_attempts - 1)) ∧
    (retry_run (alwaysFailOp f) c).result ≠ .synthesized := by
  unfold retry_run
  rw [retry_go_alwaysFail f c.max_attempts hc.1 0 none]
  exact ⟨rfl, by simp, by simp⟩

/-- Witness for C4 at `max_attempts = 3` and a constant TimeoutError. -/
theorem c4_retry_exhaustion_last_failure_witness :
    RetryConfig.Valid ⟨3, 100, 10000, 2, true⟩ ∧
    (retry_run (alwaysFailOp fun _ => PyExc.mk "TimeoutError" "t")
      ⟨3, 100, 10000, 2, true⟩).invocations = 3 ∧
    (retry_run (alwaysFailOp fun _ => PyExc.mk "TimeoutError" "t")
      ⟨3, 100, 10000, 2, true⟩).result = .raised (PyExc.mk "TimeoutError" "t") := by
  have hv : RetryConfig.Valid ⟨3, 100, 10000, 2, true⟩ :=
    ⟨by decide, by decide, by decide, by decide⟩
  have h := c4_retry_exhaustion_last_failure ⟨3, 100, 10000, 2, true⟩ hv
    (fun _ => PyExc.mk "TimeoutError" "t")
  exact ⟨hv, h.1, h.2.1⟩

/-- C8 counterexample: with `max_attempts = 1` and a matching failure on the
single attempt, no failure is followed by another attempt, yet the retry
counter is incremented once (with label 1): the increment also happens on the
final failed attempt, contradicting the claim that it happens only on
failures followed by another attempt. -/
theorem c8_counterexample_final_attempt_increment :
    (retry_run (alwaysFailOp fun _ => PyExc.mk "E" "boom")
      ⟨1, 100, 10000, 2, true⟩).increments = [1] ∧
    (retry_run (alwaysFailOp fun _ => PyExc.mk "E" "boom")
      ⟨1, 100, 10000, 2, true⟩).invocations = 1 :=
  ⟨rfl, rfl⟩

/-- C8 amended: the wrapper increments the retry-attempt counter (labeled by
the operation and the 1-indexed attempt number) exactly once per failure of a
retryable kind — including the failure on the final attempt, which is not
followed by another attempt — and on no other occasion: an operation failing
on all attempts yields labels 1..max_attempts, an operation failing on the
first k attempts then succeeding yields labels 1..k, and a non-retryable
failure yields no increment. -/
theorem c8_amended_increment_per_matching_failure (c : RetryConfig) (hc : c.Valid)
    (f : ℕ → PyExc) (k : ℕ) (hk : k < c.max_attempts) (e : PyExc) :
    (retry_run (alwaysFailOp f) c).increments = List.range' 1 c.max_attempts ∧
    (retry_run (failsThenSucceeds f k) c).increments = List.range' 1 k ∧
    (retry_run (failsThenSucceeds f k) c).invocations = k + 1 ∧
    (retry_run (failsThenSucceeds f k) c).result = .ok ∧
    (retry_run (fun _ => .nonRetryableFailure e) c).increments = [] ∧
    (retry_run (fun _ => .nonRetryableFailure e) c).invocations = 1 := by
  unfold retry_run
  rw [retry_go_alwaysFail f c.max_attempts hc.1 0 none,
    retry_go_failsThen f k c.max_attempts 0 none (by omega) (by omega)]
  obtain ⟨m, hm⟩ : ∃ m, c.max_attempts = m + 1 := ⟨c.max_attempts - 1, by omega⟩
  rw [hm]
  exact ⟨rfl, by simp, by simp, rfl, rfl, rfl⟩

/-- Witness for the amended C8 with `max_attempts = 3` and `k = 1`. -/
theorem c8_amended_increment_witness :
    RetryConfig.Valid ⟨3, 100, 10000, 2, true⟩ ∧ 1 < 3 ∧
    (retry_run (alwaysFailOp fun _ => PyExc.mk "E" "x")
      ⟨3, 100, 10000, 2, true⟩).increments = List.range' 1 3 ∧
    (retry_run (failsThenSucceeds (fun _ => PyExc.mk "E" "x") 1)
      ⟨3, 100, 10000, 2, true⟩).increments = List.range' 1 1 ∧
    (retry_run (failsThenSucceeds (fun _ => PyExc.mk "E" "x") 1)
      ⟨3, 100, 10000, 2, true⟩).invocations = 1 + 1 ∧
    (retry_run (fun _ => .nonRetryableFailure (PyExc.mk "V" "y"))
      ⟨3, 100, 10000, 2, true⟩).increments = [] ∧
    (retry_run (fun _ => .nonRetryableFailure (PyExc.mk "V" "y"))
      ⟨3, 100, 10000, 2, true⟩).invocations = 1 := by
  have hv : RetryConfig.Valid ⟨3, 100, 10000, 2, true⟩ :=
    ⟨by decide, by decide, by decide, by decide⟩
  have h := c8_amended_increment_per_matching_failure ⟨3, 100, 10000, 2, true⟩ hv
    (fun _ => PyExc.mk "E" "x") 1 (by decide) (PyExc.mk "V" "y")
  exact ⟨hv, by decide, h.1, h.2.1, h.2.2.1, h.2.2.2.2.1, h.2.2.2.2.2⟩

/-- The deterministic delay is nonnegative for a valid configuration. -/
theorem det_delay_nonneg (c : RetryConfig) (hc : c.Valid) (attempt : ℕ) :
    0 ≤ det_delay c attempt := by
  obtain ⟨-, hbase, hmax, hmul⟩ := hc
  refine le_min (mul_nonneg ?_ (pow_nonneg ?_ _)) ?_
  · exact_mod_cast hbase
  · linarith
  · exact_mod_cast le_trans hbase hmax

/-- C2 counterexample: for the valid configuration `base_delay_ms = 1`,
`max_delay_ms = 10000`, `multiplier = 3/2`, `jitter` disabled, the exact
backoff value at attempt 1 is `3/2`, but `calculate_delay_ms` returns the
Python `int()` truncation `1`, so it does not equal
`min(base_delay_ms * multiplier^attempt, max_delay_ms)` exactly. -/
theorem c2_counterexample_truncated_delay :
    RetryConfig.Valid ⟨3, 1, 10000, mkRat 3 2, false⟩ ∧
    det_delay ⟨3, 1, 10000, mkRat 3 2, false⟩ 1 = mkRat 3 2 ∧
    calculate_delay_ms ⟨3, 1, 10000, mkRat 3 2, false⟩ 1 0 = 1 ∧
    (calculate_delay_ms ⟨3, 1, 10000, mkRat 3 2, false⟩ 1 0 : ℚ) ≠
      det_delay ⟨3, 1, 10000, mkRat 3 2, false⟩ 1 := by
  have hd : det_delay ⟨3, 1, 10000, mkRat 3 2, false⟩ 1 = mkRat 3 2 := by
    unfold det_delay
    rw [Rat.mkRat_eq_div]
    push_cast
    rw [min_eq_left (by norm_num)]
    norm_num
  have hcalc : calculate_delay_ms ⟨3, 1, 10000, mkRat 3 2, false⟩ 1 0 = 1 := by
    have h2 : calculate_delay_ms ⟨3, 1, 10000, mkRat 3 2, false⟩ 1 0 =
        pyInt (det_delay ⟨3, 1, 10000, mkRat 3 2, false⟩ 1) := by
      simp [calculate_delay_ms, det_delay]
    rw [h2, hd, Rat.mkRat_eq_div, pyInt_eq_floor _ (by norm_num)]
    rw [Int.floor_eq_iff]
    norm_num
  refine ⟨⟨by decide, by decide, by decide, by decide⟩, hd, hcalc, ?_⟩
  rw [hd, hcalc, Rat.mkRat_eq_div]
  norm_num

/-- C2 amended: with jitter disabled, `calculate_delay_ms` returns the
integer truncation of the exact value `min(base_delay_ms *
multiplier^attempt, max_delay_ms)`: it is at most the exact value, greater
than the exact value minus one, and equal to it whenever the exact value is
an integer. -/
theorem c2_amended_delay_truncated_min (c : RetryConfig) (hc : c.Valid)
    (attempt : ℕ) (jf : ℚ) (hj : c.jitter = false) :
    calculate_delay_ms c attempt jf = pyInt (det_delay c attempt) ∧
    (calculate_delay_ms c attempt jf : ℚ) ≤ det_delay c attempt ∧
    det_delay c attempt - 1 < (calculate_delay_ms c attempt jf : ℚ) ∧
    ((det_delay c attempt).den = 1 →
      (calculate_delay_ms c attempt jf : ℚ) = det_delay c attempt) := by
  have h0 : 0 ≤ det_delay c attempt := det_delay_nonneg c hc attempt
  have heq : calculate_delay_ms c attempt jf = pyInt (det_delay c attempt) := by
    simp [calculate_delay_ms, det_delay, hj]
  have hfl : calculate_delay_ms c attempt jf = ⌊det_delay c attempt⌋ := by
    rw [heq, pyInt_eq_floor _ h0]
  refine ⟨heq, ?_, ?_, ?_⟩
  · rw [hfl]
    exact_mod_cast Int.floor_le (det_delay c attempt)
  · rw [hfl]
    exact_mod_cast Int.sub_one_lt_floor (det_delay c attempt)
  · intro hden
    rw [hfl, ← (Rat.den_eq_one_iff _).mp hden, Int.floor_intCast]

/-- Witness for the amended C2 at `base_delay_ms = 100`, `multiplier = 2`,
attempt 2: the exact value `400` is an integer and is returned unchanged. -/
theorem c2_amended_delay_truncated_min_witness :
    RetryConfig.Valid ⟨3, 100, 10000, 2, false⟩ ∧
    (⟨3, 100, 10000, 2, false⟩ : RetryConfig).jitter = false ∧
    calculate_delay_ms ⟨3, 100, 10000, 2, false⟩ 2 0 =
      pyInt (det_delay ⟨3, 100, 10000, 2, false⟩ 2) ∧
    ((det_delay ⟨3, 100, 10000, 2, false⟩ 2).den = 1 →
      (calculate_delay_ms ⟨3, 100, 10000, 2, false⟩ 2 0 : ℚ) =
        det_delay ⟨3, 100, 10000, 2, false⟩ 2) := by
  have hv : RetryConfig.Valid ⟨3, 100, 10000, 2, false⟩ :=
    ⟨by decide, by decide, by decide, by decide⟩
  have h := c2_amended_delay_truncated_min ⟨3, 100, 10000, 2, false⟩ hv 2 0 rfl
  exact ⟨hv, rfl, h.1, h.2.2.2⟩

/-- C7 counterexample: for the valid configuration `base_delay_ms = 1`,
`multiplier = 2`, jitter enabled, attempt 0, the deterministic value is 1 and
the jitter factor `1/2` lies inside `[0.5, 1.5]`, yet `calculate_delay_ms`
returns `int(0.5) = 0`, which is strictly below the claimed lower bound
`0.5 * 1`. -/
theorem c7_counterexample_jitter_truncation :
    RetryConfig.Valid ⟨3, 1, 10000, 2, true⟩ ∧
    (1/2 : ℚ) ≤ mkRat 1 2 ∧ mkRat 1 2 ≤ (3/2 : ℚ) ∧
    det_delay ⟨3, 1, 10000, 2, true⟩ 0 = 1 ∧
    calculate_delay_ms ⟨3, 1, 10000, 2, true⟩ 0 (mkRat 1 2) = 0 ∧
    ¬ (mkRat 1 2 * det_delay ⟨3, 1, 10000, 2, true⟩ 0 ≤
        (calculate_delay_ms ⟨3, 1, 10000, 2, true⟩ 0 (mkRat 1 2) : ℚ)) := by
  have hd : det_delay ⟨3, 1, 10000, 2, true⟩ 0 = 1 := by
    unfold det_delay
    push_cast
    rw [min_eq_left (by norm_num)]
    norm_num
  have hcalc : calculate_delay_ms ⟨3, 1, 10000, 2, true⟩ 0 (mkRat 1 2) = 0 := by
    have h2 : calculate_delay_ms ⟨3, 1, 10000, 2, true⟩ 0 (mkRat 1 2) =
        pyInt (det_delay ⟨3, 1, 10000, 2, true⟩ 0 * mkRat 1 2) := by
      simp [calculate_delay_ms, det_delay]
    rw [h2, hd, Rat.mkRat_eq_div, pyInt_eq_floor _ (by norm_num)]
    rw [Int.floor_eq_iff]
    norm_num
  refine ⟨⟨by decide, by decide, by decide, by decide⟩,
    by rw [Rat.mkRat_eq_div]; norm_num, by rw [Rat.mkRat_eq_div]; norm_num, hd, hcalc, ?_⟩
  rw [hd, hcalc, Rat.mkRat_eq_div]
  norm_num

/-- C7 amended: with jitter enabled and a jitter factor in `[0.5, 1.5]`, the
returned delay is at most `1.5 x` the deterministic value, greater than
`0.5 x` the deterministic value minus one (the lower jitter bound can be
undershot by strictly less than one unit due to the final `int()`
truncation), and never negative. -/
theorem c7_amended_jitter_delay_bounds (c : RetryConfig) (hc : c.Valid)
    (attempt : ℕ) (jf : ℚ) (hj : c.jitter = true)
    (hjf1 : (1/2 : ℚ) ≤ jf) (hjf2 : jf ≤ (3/2 : ℚ)) :
    (calculate_delay_ms c attempt jf : ℚ) ≤ 3/2 * det_delay c attempt ∧
    1/2 * det_delay c attempt - 1 < (calculate_delay_ms c attempt jf : ℚ) ∧
    0 ≤ calculate_delay_ms c attempt jf := by
  have h0 : 0 ≤ det_delay c attempt := det_delay_nonneg c hc attempt
  have hprod : 0 ≤ det_delay c attempt * jf :=
    mul_nonneg h0 (le_trans (by norm_num) hjf1)
  have heq : calculate_delay_ms c attempt jf = ⌊det_delay c attempt * jf⌋ := by
    have h2 : calculate_delay_ms c attempt jf = pyInt (det_delay c attempt * jf) := by
      simp [calculate_delay_ms, det_delay, hj]
    rw [h2, pyInt_eq_floor _ hprod]
  have hub : det_delay c attempt * jf ≤ 3/2 * det_delay c attempt := by
    rw [mul_comm (3/2 : ℚ)]
    exact mul_le_mul_of_nonneg_left hjf2 h0
  have hlb : 1/2 * det_delay c attempt ≤ det_delay c attempt * jf := by
    rw [mul_comm (1/2 : ℚ)]
    exact mul_le_mul_of_nonneg_left hjf1 h0
  have hfl := Int.floor_le (det_delay c attempt * jf)
  have hfl2 := Int.sub_one_lt_floor (det_delay c attempt * jf)
  refine ⟨?_, ?_, ?_⟩
  · rw [heq]
    linarith
  · rw [heq]
    linarith
  · rw [heq]
    exact Int.floor_nonneg.mpr hprod

/-- Witness for the amended C7 at `base_delay_ms = 100`, `multiplier = 2`,
attempt 0 and jitter factor 1. -/
theorem c7_amended_jitter_delay_bounds_witness :
    RetryConfig.Valid ⟨3, 100, 10000, 2, true⟩ ∧
    (⟨3, 100, 10000, 2, true⟩ : RetryConfig).jitter = true ∧
    (1/2 : ℚ) ≤ 1 ∧ (1 : ℚ) ≤ 3/2 ∧
    (calculate_delay_ms ⟨3, 100, 10000, 2, true⟩ 0 1 : ℚ) ≤
      3/2 * det_delay ⟨3, 100, 10000, 2, true⟩ 0 ∧
    1/2 * det_delay ⟨3, 100, 10000, 2, true⟩ 0 - 1 <
      (calculate_delay_ms ⟨3, 100, 10000, 2, true⟩ 0 1 : ℚ) ∧
    0 ≤ calculate_delay_ms ⟨3, 100, 10000, 2, true⟩ 0 1 := by
  have hv : RetryConfig.Valid ⟨3, 100, 10000, 2, true⟩ :=
    ⟨by decide, by decide, by decide, by decide⟩
  have h := c7_amended_jitter_delay_bounds ⟨3, 100, 10000, 2, true⟩ hv 0 1 rfl
    (by norm_num) (by norm_num)
  exact ⟨hv, rfl, by norm_num, by norm_num, h.1, h.2.1, h.2.2⟩

/-- A list starts with itself, character by character. -/
theorem beginsWith_refl_append (pat suf : List Char) :
    beginsWith (pat ++ suf) pat = true := by
  induction pat with
  | nil => cases suf <;> rfl
  | cons c cs ih => simp [beginsWith, ih]

/-- A list contains itself (followed by anything) as a sublist. -/
theorem hasSubList_self_append (pat suf : List Char) :
    hasSubList pat (pat ++ suf) = true := by
  cases pat with
  | nil =>
    cases suf with
    | nil => rfl
    | cons c cs => simp [hasSubList, beginsWith]
  | cons p ps =>
    show hasSubList (p :: ps) (p :: (ps ++ suf)) = true
    simp only [hasSubList, Bool.or_eq_true]
    exact Or.inl (beginsWith_refl_append (p :: ps) suf)

/-- Substring containment holds for an explicitly surrounded pattern. -/
theorem hasSubList_append_left (pre pat suf : List Char) :
    hasSubList pat (pre ++ (pat ++ suf)) = true := by
  induction pre with
  | nil => exact hasSubList_self_append pat suf
  | cons c cs ih =>
    show hasSubList pat (c :: (cs ++ (pat ++ suf))) = true
    simp only [hasSubList, Bool.or_eq_true]
    exact Or.inr ih

/-- A string surrounded by a prelude and a coda contains itself. -/
theorem strHasSub_surround (pre name suf : String) :
    strHasSub (pre ++ name ++ suf) name = true := by
  unfold strHasSub
  rw [String.data_append, String.data_append, List.append_assoc]
  exact hasSubList_append_left pre.data name.data suf.data

/-- C1: a CLOSED breaker with failure count 0, hit by `failure_threshold`
consecutive matching failures at time `t`, ends OPEN with `opened_at = t`;
any subsequent call at a time `t2` with `t2 - t < recovery_timeout_seconds`
— whatever its operation would do — raises the circuit-open exception, does
not invoke the operation, and leaves the entire breaker record (state,
failure_count, success_count, last_failure_time, opened_at) unchanged. -/
theorem c1_threshold_failures_open_then_fail_fast (cb : CircuitBreaker)
    (t t2 : ℚ) (os : List Outcome) (o : Outcome)
    (hst : cb.state = .CLOSED) (hfc : cb.failure_count = 0)
    (hth : 1 ≤ cb.config.failure_threshold)
    (hos : ∀ o' ∈ os, ∃ e, o' = Outcome.matchingFailure e)
    (hlen : os.length = cb.config.failure_threshold)
    (ht2 : t2 - t < (cb.config.recovery_timeout_seconds : ℚ)) :
    (calls_fold cb t os).state = .OPEN ∧
    (calls_fold cb t os).opened_at = some t ∧
    call_sync (calls_fold cb t os) t2 o =
      ⟨calls_fold cb t os, false, .rejected (circuitOpenExc cb.name)⟩ := by
  obtain ⟨h1, h2, h3, h4⟩ :=
    calls_fold_matching_closed t os cb hos hst (by omega) (by omega)
  refine ⟨h1, h2, ?_⟩
  have hr := call_sync_open_rejects (calls_fold cb t os) t2 t o h1 h2
    (by rw [h4]; exact ht2)
  rw [hr, h3]

/-- Witness for C1: a fresh breaker named db with failure_threshold 3 and
recovery timeout 60, three matching failures at time 0, checked again at
time 59. -/
theorem c1_threshold_failures_witness :
    (CircuitBreaker.init "db" ⟨3, 60, 2⟩).state = .CLOSED ∧
    (CircuitBreaker.init "db" ⟨3, 60, 2⟩).failure_count = 0 ∧
    (59 : ℚ) - 0 <
      ((CircuitBreaker.init "db" ⟨3, 60, 2⟩).config.recovery_timeout_seconds : ℚ) ∧
    (calls_fold (CircuitBreaker.init "db" ⟨3, 60, 2⟩) 0
      (List.replicate 3 (.matchingFailure ⟨"E", "x"⟩))).state = .OPEN ∧
    (calls_fold (CircuitBreaker.init "db" ⟨3, 60, 2⟩) 0
      (List.replicate 3 (.matchingFailure ⟨"E", "x"⟩))).opened_at = some 0 ∧
    call_sync (calls_fold (CircuitBreaker.init "db" ⟨3, 60, 2⟩) 0
        (List.replicate 3 (.matchingFailure ⟨"E", "x"⟩))) 59 .success =
      ⟨calls_fold (CircuitBreaker.init "db" ⟨3, 60, 2⟩) 0
        (List.replicate 3 (.matchingFailure ⟨"E", "x"⟩)), false,
        .rejected (circuitOpenExc "db")⟩ := by
  have h := c1_threshold_failures_open_then_fail_fast
    (CircuitBreaker.init "db" ⟨3, 60, 2⟩) 0 59
    (List.replicate 3 (.matchingFailure ⟨"E", "x"⟩)) .success
    rfl rfl (by decide)
    (fun o' ho' => ⟨⟨"E", "x"⟩, List.eq_of_mem_replicate ho'⟩)
    (by simp [CircuitBreaker.init]) (by norm_num [CircuitBreaker.init])
  exact ⟨rfl, rfl, by norm_num [CircuitBreaker.init], h.1, h.2.1, h.2.2⟩

/-- C3 amended: for a breaker that has just entered HALF_OPEN
(success_count = 0) and satisfies the reachability invariant
failure_count ≥ failure_threshold: success_threshold consecutive successes
drive it to CLOSED with failure_count reset to 0; and — provided
success_threshold ≥ 2, so that a single success does not already close the
circuit — a single success followed by one matching failure leaves it OPEN
with opened_at recorded at the failure time. -/
theorem c3_amended_half_open_recovery_or_reopen (cb : CircuitBreaker)
    (t t2 : ℚ) (e : PyExc)
    (hst : cb.state = .HALF_OPEN) (hsc : cb.success_count = 0)
    (hfc : cb.config.failure_threshold ≤ cb.failure_count)
    (hth : 2 ≤ cb.config.success_threshold) :
    (calls_fold cb t (List.replicate cb.config.success_threshold .success)).state
        = .CLOSED ∧
    (calls_fold cb t (List.replicate cb.config.success_threshold .success)).failure_count
        = 0 ∧
    (call_sync (call_sync cb t .success).cb t2 (.matchingFailure e)).cb.state = .OPEN ∧
    (call_sync (call_sync cb t .success).cb t2 (.matchingFailure e)).cb.opened_at
        = some t2 := by
  have hpart1 := calls_fold_success_half_open t cb.config.success_threshold cb hst
    (by omega) (by omega)
  have hne : cb.state ≠ .OPEN := by rw [hst]; simp
  have hstep1 : (call_sync cb t .success).cb =
      { cb with success_count := cb.success_count + 1 } := by
    unfold call_sync
    rw [after_reset_check_of_ne_open cb t hne, if_neg hne]
    show on_success cb = _
    unfold on_success
    rw [if_pos hst,
      if_neg (show ¬ cb.config.success_threshold ≤ cb.success_count + 1 by omega)]
  have hne1 : ({ cb with success_count := cb.success_count + 1 } :
      CircuitBreaker).state ≠ .OPEN := hne
  have hstep2 : (call_sync { cb with success_count := cb.success_count + 1 } t2
      (.matchingFailure e)).cb =
      { cb with success_count := cb.success_count + 1,
                failure_count := cb.failure_count + 1,
                last_failure_time := some t2,
                state := .OPEN, opened_at := some t2 } := by
    unfold call_sync
    rw [after_reset_check_of_ne_open _ t2 hne1, if_neg hne1]
    show on_matching_failure { cb with success_count := cb.success_count + 1 } t2 = _
    unfold on_matching_failure
    rw [if_pos (show cb.config.failure_threshold ≤ cb.failure_count + 1 by omega)]
  refine ⟨hpart1.1, hpart1.2, ?_, ?_⟩ <;> rw [hstep1, hstep2]

/-- Witness for the amended C3: a HALF_OPEN breaker with failure_count 3 at
threshold 3 and success_threshold 2, exercised at times 100 and 101. -/
theorem c3_amended_half_open_witness :
    (⟨"db", ⟨3, 60, 2⟩, .HALF_OPEN, 3, 0, some 0, some 0⟩ :
      CircuitBreaker).state = .HALF_OPEN ∧
    (calls_fold (⟨"db", ⟨3, 60, 2⟩, .HALF_OPEN, 3, 0, some 0, some 0⟩ :
      CircuitBreaker) 100 (List.replicate 2 .success)).state = .CLOSED ∧
    (calls_fold (⟨"db", ⟨3, 60, 2⟩, .HALF_OPEN, 3, 0, some 0, some 0⟩ :
      CircuitBreaker) 100 (List.replicate 2 .success)).failure_count = 0 ∧
    (call_sync (call_sync (⟨"db", ⟨3, 60, 2⟩, .HALF_OPEN, 3, 0, some 0, some 0⟩ :
      CircuitBreaker) 100 .success).cb 101
        (.matchingFailure ⟨"E", "x"⟩)).cb.state = .OPEN ∧
    (call_sync (call_sync (⟨"db", ⟨3, 60, 2⟩, .HALF_OPEN, 3, 0, some 0, some 0⟩ :
      CircuitBreaker) 100 .success).cb 101
        (.matchingFailure ⟨"E", "x"⟩)).cb.opened_at = some 101 := by
  have h := c3_amended_half_open_recovery_or_reopen
    (⟨"db", ⟨3, 60, 2⟩, .HALF_OPEN, 3, 0, some 0, some 0⟩ : CircuitBreaker)
    100 101 ⟨"E", "x"⟩ rfl rfl (by decide) (by decide)
  exact ⟨rfl, h.1, h.2.1, h.2.2.1, h.2.2.2⟩

/-- C3 counterexample: with success_threshold = 1 (accepted by the config
validation) a single success already closes the circuit, so one success
followed by a matching failure leaves a CLOSED breaker (failure_count 1,
below the threshold 2): the circuit does not reopen, refuting the claim as
stated for every breaker in HALF_OPEN. -/
theorem c3_counterexample_single_success_closes :
    (⟨"svc", ⟨2, 60, 1⟩, .HALF_OPEN, 2, 0, some 0, some 0⟩ :
      CircuitBreaker).state = .HALF_OPEN ∧
    (call_sync (call_sync (⟨"svc", ⟨2, 60, 1⟩, .HALF_OPEN, 2, 0, some 0, some 0⟩ :
        CircuitBreaker) 1 .success).cb 2
      (.matchingFailure ⟨"E", "x"⟩)).cb.state = .CLOSED ∧
    ¬ ((call_sync (call_sync (⟨"svc", ⟨2, 60, 1⟩, .HALF_OPEN, 2, 0, some 0, some 0⟩ :
        CircuitBreaker) 1 .success).cb 2
      (.matchingFailure ⟨"E", "x"⟩)).cb.state = .OPEN) := by
  refine ⟨rfl, by decide, by decide⟩

/-- C5: a call on an OPEN breaker whose recovery timeout has elapsed first
transitions it to HALF_OPEN with success_count reset to 0 and then invokes
the protected operation: the call is not short-circuited and behaves exactly
like a call on that HALF_OPEN breaker. -/
theorem c5_open_timeout_half_open_invokes (cb : CircuitBreaker) (t now : ℚ)
    (o : Outcome) (hs : cb.state = .OPEN) (ht : cb.opened_at = some t)
    (helapsed : (cb.config.recovery_timeout_seconds : ℚ) ≤ now - t) :
    (call_sync cb now o).invoked = true ∧
    call_sync cb now o =
      call_sync { cb with state := .HALF_OPEN, success_count := 0 } now o := by
  have hres : cb.should_attempt_reset now = true := by
    unfold CircuitBreaker.should_attempt_reset
    rw [hs, ht]
    exact decide_eq_true helapsed
  have harc : after_reset_check cb now =
      { cb with state := .HALF_OPEN, success_count := 0 } := by
    unfold after_reset_check
    rw [hres]
    rfl
  have hne : ({ cb with state := .HALF_OPEN, success_count := 0 } :
      CircuitBreaker).state ≠ .OPEN := by simp
  have harc2 : after_reset_check
      { cb with state := .HALF_OPEN, success_count := 0 } now =
      { cb with state := .HALF_OPEN, success_count := 0 } :=
    after_reset_check_of_ne_open _ now hne
  constructor
  · unfold call_sync
    rw [harc, if_neg hne]
    rcases o <;> rfl
  · unfold call_sync
    rw [harc, harc2]

/-- Witness for C5: an OPEN breaker with recovery timeout 1 opened at time 0,
called at time 2. -/
theorem c5_open_timeout_witness :
    (⟨"db", ⟨3, 1, 2⟩, .OPEN, 3, 0, some 0, some 0⟩ : CircuitBreaker).state = .OPEN ∧
    ((⟨"db", ⟨3, 1, 2⟩, .OPEN, 3, 0, some 0, some 0⟩ :
      CircuitBreaker).config.recovery_timeout_seconds : ℚ) ≤ (2 : ℚ) - 0 ∧
    (call_sync (⟨"db", ⟨3, 1, 2⟩, .OPEN, 3, 0, some 0, some 0⟩ :
      CircuitBreaker) 2 .success).invoked = true ∧
    call_sync (⟨"db", ⟨3, 1, 2⟩, .OPEN, 3, 0, some 0, some 0⟩ :
        CircuitBreaker) 2 .success =
      call_sync (⟨"db", ⟨3, 1, 2⟩, .HALF_OPEN, 3, 0, some 0, some 0⟩ :
        CircuitBreaker) 2 .success := by
  have h := c5_open_timeout_half_open_invokes
    (⟨"db", ⟨3, 1, 2⟩, .OPEN, 3, 0, some 0, some 0⟩ : CircuitBreaker)
    0 2 .success rfl rfl (by norm_num)
  exact ⟨rfl, by norm_num, h.1, h.2⟩

/-- C6 counterexample: the short-circuit rejection raised by an OPEN breaker
is a plain `Exception` — exactly the same exception kind as an underlying
operation failure such as `Exception("boom")` (which the breaker's default
matching tuple counts as a failure): the rejection is not a distinct failure
kind distinguishable from the operation's own failures. -/
theorem c6_counterexample_rejection_generic_type :
    (call_sync (⟨"db", ⟨3, 60, 2⟩, .OPEN, 3, 0, some 0, some 0⟩ :
        CircuitBreaker) 1 (.matchingFailure ⟨"Exception", "boom"⟩)).result =
      .rejected (circuitOpenExc "db") ∧
    (circuitOpenExc "db").etype = (PyExc.mk "Exception" "boom").etype := by
  refine ⟨?_, rfl⟩
  rw [call_sync_open_rejects _ 1 0 _ rfl rfl (by norm_num)]

/-- C6 amended: when an OPEN breaker short-circuits (timeout not elapsed), it
raises a plain `Exception` — the most generic kind, not a distinct exception
type — whose message carries the breaker's name, without invoking the
operation; the rejection is distinguishable from operation failures only by
its message content. -/
theorem c6_amended_rejection_carries_name (cb : CircuitBreaker) (now t : ℚ)
    (o : Outcome) (hs : cb.state = .OPEN) (ht : cb.opened_at = some t)
    (hlt : now - t < (cb.config.recovery_timeout_seconds : ℚ)) :
    (call_sync cb now o).result = .rejected (circuitOpenExc cb.name) ∧
    (call_sync cb now o).invoked = false ∧
    (circuitOpenExc cb.name).etype = "Exception" ∧
    strHasSub (circuitOpenExc cb.name).msg cb.name = true := by
  have h := call_sync_open_rejects cb now t o hs ht hlt
  refine ⟨by rw [h], by rw [h], rfl, ?_⟩
  exact strHasSub_surround "Circuit breaker " cb.name
    " is OPEN. Service is unavailable."

/-- Witness for the amended C6: an OPEN breaker named payments-db, opened at
time 0 with timeout 60, called at time 10. -/
theorem c6_amended_rejection_witness :
    (⟨"payments-db", ⟨3, 60, 2⟩, .OPEN, 3, 0, some 0, some 0⟩ :
      CircuitBreaker).state = .OPEN ∧
    (call_sync (⟨"payments-db", ⟨3, 60, 2⟩, .OPEN, 3, 0, some 0, some 0⟩ :
      CircuitBreaker) 10 .success).result = .rejected (circuitOpenExc "payments-db") ∧
    (call_sync (⟨"payments-db", ⟨3, 60, 2⟩, .OPEN, 3, 0, some 0, some 0⟩ :
      CircuitBreaker) 10 .success).invoked = false ∧
    (circuitOpenExc "payments-db").etype = "Exception" ∧
    strHasSub (circuitOpenExc "payments-db").msg "payments-db" = true := by
  have h := c6_amended_rejection_carries_name
    (⟨"payments-db", ⟨3, 60, 2⟩, .OPEN, 3, 0, some 0, some 0⟩ : CircuitBreaker)
    10 0 .success rfl rfl (by norm_num)
  exact ⟨rfl, h.1, h.2.1, h.2.2.1, h.2.2.2⟩

/-- C10: every `call_sync` invocation preserves the invariant "state OPEN or
HALF_OPEN implies failure_count ≥ failure_threshold" (failure_count is reset
only on transition to CLOSED or on a success while CLOSED, never on entering
HALF_OPEN); a freshly initialized breaker satisfies it; and consequently one
matching failure on a HALF_OPEN breaker satisfying the invariant immediately
reopens the circuit and records a fresh `opened_at`. -/
theorem c10_failure_count_invariant (cb : CircuitBreaker) (now : ℚ)
    (o : Outcome) (e : PyExc) (h : CBInv cb) :
    CBInv (call_sync cb now o).cb ∧
    CBInv (CircuitBreaker.init cb.name cb.config) ∧
    (cb.state = .HALF_OPEN →
      (call_sync cb now (.matchingFailure e)).cb.state = .OPEN ∧
      (call_sync cb now (.matchingFailure e)).cb.opened_at = some now) := by
  refine ⟨?_, ?_, ?_⟩
  · have h2 := after_reset_check_inv cb now h
    unfold call_sync
    by_cases hopen : (after_reset_check cb now).state = .OPEN
    · rw [if_pos hopen]
      exact h2
    · rw [if_neg hopen]
      rcases o with _ | e' | e'
      · exact on_success_inv _ h2
      · exact on_matching_failure_inv _ now h2 hopen
      · exact h2
  · intro hor
    simp [CircuitBreaker.init] at hor
  · intro hho
    have hne : cb.state ≠ .OPEN := by rw [hho]; simp
    have hstep : (call_sync cb now (.matchingFailure e)).cb =
        on_matching_failure cb now := by
      unfold call_sync
      rw [after_reset_check_of_ne_open cb now hne, if_neg hne]
    have hthr : cb.config.failure_threshold ≤ cb.failure_count + 1 := by
      have := h (Or.inr hho)
      omega
    have hr : on_matching_failure cb now =
        { cb with failure_count := cb.failure_count + 1,
                  last_failure_time := some now,
                  state := .OPEN, opened_at := some now } := by
      unfold on_matching_failure
      rw [if_pos hthr]
    rw [hstep, hr]
    exact ⟨rfl, rfl⟩

/-- Witness for C10: a HALF_OPEN breaker with failure_count 5 at threshold 3,
called at time 7. -/
theorem c10_failure_count_invariant_witness :
    CBInv (⟨"db", ⟨3, 60, 2⟩, .HALF_OPEN, 5, 1, some 0, some 0⟩ : CircuitBreaker) ∧
    CBInv (call_sync (⟨"db", ⟨3, 60, 2⟩, .HALF_OPEN, 5, 1, some 0, some 0⟩ :
      CircuitBreaker) 7 .success).cb ∧
    (call_sync (⟨"db", ⟨3, 60, 2⟩, .HALF_OPEN, 5, 1, some 0, some 0⟩ :
      CircuitBreaker) 7 (.matchingFailure ⟨"E", "x"⟩)).cb.state = .OPEN ∧
    (call_sync (⟨"db", ⟨3, 60, 2⟩, .HALF_OPEN, 5, 1, some 0, some 0⟩ :
      CircuitBreaker) 7 (.matchingFailure ⟨"E", "x"⟩)).cb.opened_at = some 7 := by
  have hinv : CBInv (⟨"db", ⟨3, 60, 2⟩, .HALF_OPEN, 5, 1, some 0, some 0⟩ :
      CircuitBreaker) := by
    intro _
    decide
  have h := c10_failure_count_invariant
    (⟨"db", ⟨3, 60, 2⟩, .HALF_OPEN, 5, 1, some 0, some 0⟩ : CircuitBreaker)
    7 .success ⟨"E", "x"⟩ hinv
  exact ⟨hinv, h.1, (h.2.2 rfl).1, (h.2.2 rfl).2⟩

end Atlas
